import Mathlib

/-!
# CanvasDial: a shallow embedding of `src/CanvasDial.js`

The dial object and its drawing primitives are translated function by function.

Modelling conventions.

* The numbers a dial holds and computes with are exact rationals (`ℚ`), without
  rounding.  Where the source can divide by zero or add `undefined`, the value
  handed to the surface is recorded as `Angle.nonFinite`, or the case is spelled
  out in the definition.
* The argument of `checkValue` and `checkPercent` is an `Arg`: missing
  (`undefined`/`null`), `NaN`, an infinity, or a finite number.
* An option of a bag is an `Option`; `none` is the missing value, and a present
  option is a finite number (`Arg.ofOption` hands it to the validation helpers).
* The 2D context is an external collaborator.  Every mutation the source
  performs on it is recorded, in order, as a `Cmd`; its two queries
  (`measureText`, and the `Math.cos`/`Math.sin` pair) are parameters (`Env`).
* `console.log` is not modelled: no return value or surface command depends
  on it.
* A primitive mutates the option bag it receives; the bag as the call leaves
  it is part of the result.
* The two `for` loops carry fuel; `none` is "the fuel ran out".
* Embedded: `checkValue`, `checkPercent`, `drawArc`, `drawSegment`, `drawTicks`,
  `drawScale`, `drawValue`, `drawPointer`.  Not embedded: the constructor's DOM
  access, `setBaseParameters`, `drawBackground`, and `drawSweep` (whose
  `radiusPercent - 2` is `NaN` for a missing option and then passes
  `checkPercent`).
-/

namespace CanvasDial

/-! ## Dial state -/

/-- The fields set by the constructor (lines 79-87) together with the private
canvas `width` (line 60) and `canvasName`. -/
structure Dial where
  value : ℚ
  units : String
  sweep : ℚ
  rotation : ℚ
  minvalue : ℚ
  maxvalue : ℚ
  tickmarks : ℚ
  fontfamily : String
  bgcolor : String
  width : ℕ
  canvasName : String
deriving DecidableEq

/-- Line 90: `getWidth`. -/
def Dial.getWidth (d : Dial) : ℚ := d.width

/-- Lines 57, 61, 91: the height is forced equal to the width. -/
def Dial.getHeight (d : Dial) : ℚ := d.width

/-- Lines 63, 94: `centerX = Math.floor(width/2)`. -/
def Dial.getCenterX (d : Dial) : ℚ := (⌊(d.width : ℚ) / 2⌋ : ℤ)

/-- Lines 64, 95: `centerY = Math.floor(height/2)`. -/
def Dial.getCenterY (d : Dial) : ℚ := (⌊d.getHeight / 2⌋ : ℤ)

/-- Line 99: `getRange`. -/
def Dial.getRange (d : Dial) : ℚ := d.maxvalue - d.minvalue

/-- Line 100: `getRadius`. -/
def Dial.getRadius (d : Dial) : ℚ := (d.width : ℚ) / 2

/-! ## Validation helpers -/

/-- An argument of a validation helper: missing (`undefined` or `null`), `NaN`,
`Infinity`, `-Infinity`, or a finite number.  Any other JavaScript value enters
the comparisons of lines 530 and 545 through its conversion to a number, which
is one of the last four. -/
inductive Arg where
  | missing
  | nan
  | posInf
  | negInf
  | num (q : ℚ)
deriving DecidableEq

/-- An option of a bag as an argument: absent, or a finite number. -/
def Arg.ofOption : Option ℚ → Arg
  | none => Arg.missing
  | some q => Arg.num q

/-- Lines 525-537: `checkValue(value, func)`.  `value == null` (line 526) holds
for `null` and `undefined`.  Of the two tests of line 530, `value < minvalue`
and `value > maxvalue`, neither holds for `NaN`, the second holds for
`Infinity` and the first for `-Infinity`. -/
def checkValue (d : Dial) (value : Arg) : Bool :=
  match value with
  | Arg.missing => false
  | Arg.nan => true
  | Arg.posInf => false
  | Arg.negInf => false
  | Arg.num v =>
    if v < d.minvalue ∨ v > d.maxvalue then false
    else true

/-- Lines 540-552: `checkPercent(percentage, func)`.  `percentage == null`
(line 541) holds for `null` and `undefined`.  Of the two tests of line 545,
`percentage > 100` and `percentage < 1`, neither holds for `NaN`, the first
holds for `Infinity` and the second for `-Infinity`. -/
def checkPercent (percentage : Arg) : Bool :=
  match percentage with
  | Arg.missing => false
  | Arg.nan => true
  | Arg.posInf => false
  | Arg.negInf => false
  | Arg.num p =>
    if p > 100 ∨ p < 1 then false
    else true

/-! ## JavaScript idioms -/

/-- The idiom `a || b` on a numeric option: `undefined` and `0` are falsy. -/
def orNum (a : Option ℚ) (b : ℚ) : ℚ :=
  match a with
  | some x => if x = 0 then b else x
  | none => b

/-- The idiom `a || b` on a string option: `undefined` and `""` are falsy. -/
def orStr (a : Option String) (b : String) : String :=
  match a with
  | some s => if s = "" then b else s
  | none => b

/-! ## The drawing surface -/

/-- A radian value handed to the surface.  `deg2Rad(d) = d * Math.PI / 180` is
kept as its degree measure `d`; `nonFinite` is the `NaN`/infinite value that
results from dividing by a zero range or adding `undefined`. -/
inductive Angle where
  | ofDeg (deg : ℚ)
  | nonFinite
deriving DecidableEq

/-- Line 101: `deg2Rad`. -/
def deg2Rad (deg : ℚ) : Angle := Angle.ofDeg deg

/-- The radian literal `2 * Math.PI` (lines 142, 508, 514). -/
def twoPi : Angle := Angle.ofDeg 360

/-- A text argument of `fillText`/`measureText`. -/
inductive Txt where
  | num (q : ℚ)
  | str (s : String)
  | undefined
deriving DecidableEq

/-- The queries answered by the surface and by `Math`: the measured width of
a text under a font, and cosine and sine of an angle. -/
structure Env where
  measureText : String → Txt → ℚ
  cos : Angle → ℚ
  sin : Angle → ℚ

/-- One mutation of the 2D context, in the order the source performs it. -/
inductive Cmd where
  | beginPath
  | closePath
  | fill
  | stroke
  | arc (x y r : ℚ) (startAngle stopAngle : Angle) (anticlockwise : Bool)
  | moveTo (x y : ℚ)
  | lineTo (x y : ℚ)
  | setFillStyle (c : Option String)
  | setStrokeStyle (c : Option String)
  | setLineWidth (w : ℚ)
  | setLineCap (s : String)
  | setFont (f : String)
  | setTextBaseline (s : String)
  | setTextAlign (s : String)
  | fillText (t : Txt) (x y : ℚ)
  | translate (x y : ℚ)
  | rotate (a : Angle)
deriving DecidableEq

/-- What a primitive leaves behind: its return value, the commands it issued
and the option bag as mutated by the call. -/
structure Result (β : Type) where
  ret : Bool
  cmds : List Cmd
  bag : β

/-! ## Geometry -/

/-- The degrees expression of lines 183-184 and 291:
`x / getRange() * sweep + rotation`, for an offset `x` from `minvalue`. -/
def Dial.sweepDegrees (d : Dial) (x : ℚ) : ℚ :=
  x / d.getRange * d.sweep + d.rotation

/-- The radian value `deg2Rad(x / getRange() * sweep + rotation)`; the quotient is
not finite when the range is 0. -/
def Dial.sweepAngle (d : Dial) (x : ℚ) : Angle :=
  if d.getRange = 0 then Angle.nonFinite else deg2Rad (d.sweepDegrees x)

/-- Lines 177, 270: `Math.floor(getWidth() * percent / 100)`. -/
def Dial.absWidth (d : Dial) (percent : ℚ) : ℤ :=
  ⌊d.getWidth * percent / 100⌋

/-- Lines 178, 271: `Math.floor(getCenterX() * radiusPercent/100 - absWidth/2)`. -/
def Dial.absRadius (d : Dial) (radiusPercent : ℚ) (absWidth : ℤ) : ℤ :=
  ⌊d.getCenterX * radiusPercent / 100 - (absWidth : ℚ) / 2⌋

/-! ## drawArc and drawSegment -/

/-- The option bag of `drawArc` and `drawSegment`. -/
structure ArcOptions where
  start : Option ℚ
  stop : Option ℚ
  radiusPercent : Option ℚ
  widthPercent : Option ℚ
  color : Option String
  lineCap : Option String
deriving DecidableEq

/-- Lines 158-198: `drawArc(options)`.  A missing argument fails its check, so
the four validated fields are present past line 170. -/
def drawArc (d : Dial) (options : ArcOptions) : Result ArcOptions :=
  match options.start, options.stop, options.radiusPercent, options.widthPercent with
  | some start, some stop, some radiusPercent, some widthPercent =>
    if checkValue d (Arg.num start) = false ∨ checkValue d (Arg.num stop) = false ∨
        checkPercent (Arg.num radiusPercent) = false ∨
        checkPercent (Arg.num widthPercent) = false then
      ⟨false, [], options⟩
    else
      let color := orStr options.color "#fff"
      let lineCap := orStr options.lineCap "butt"
      let absWidth := d.absWidth widthPercent
      let absRadius := d.absRadius radiusPercent absWidth
      let start1 := start - d.minvalue
      let stop1 := stop - d.minvalue
      let absStart := d.sweepAngle start1
      let absStop := d.sweepAngle stop1
      ⟨true,
        [Cmd.beginPath,
         Cmd.arc d.getCenterX d.getCenterY absRadius absStart absStop false,
         Cmd.setStrokeStyle (some color),
         Cmd.setLineWidth absWidth,
         Cmd.setLineCap lineCap,
         Cmd.stroke],
        { options with
            color := some color, lineCap := some lineCap,
            start := some start1, stop := some stop1 }⟩
  | _, _, _, _ => ⟨false, [], options⟩

/-- Line 240: the bag `drawSegment` hands to `drawArc`. -/
def segmentBag (options : ArcOptions) : ArcOptions :=
  { start := options.start, stop := options.stop,
    radiusPercent := options.radiusPercent, widthPercent := options.widthPercent,
    color := options.color, lineCap := some "butt" }

/-- Lines 234-245: `drawSegment(options)` builds a fresh bag for `drawArc`,
only logs when `drawArc` fails, and returns true. -/
def drawSegment (d : Dial) (options : ArcOptions) : Result ArcOptions :=
  let r := drawArc d (segmentBag options)
  ⟨true, r.cmds, options⟩

/-! ## drawTicks -/

/-- The option bag of `drawTicks`. -/
structure TicksOptions where
  radiusPercent : Option ℚ
  lengthPercent : Option ℚ
  numTicks : Option ℚ
  tickWidth : Option ℚ
  color : Option String
deriving DecidableEq

/-- Line 292: `deg2Rad(i/getRange() * sweep + tickWidth + rotation)`; adding an
`undefined` tick width gives `NaN`. -/
def Dial.tickStop (d : Dial) (i : ℚ) (tickWidth : Option ℚ) : Angle :=
  match tickWidth with
  | none => Angle.nonFinite
  | some w =>
    if d.getRange = 0 then Angle.nonFinite
    else deg2Rad (i / d.getRange * d.sweep + w + d.rotation)

/-- Lines 291-297: the body of the tick loop at offset `i`. -/
def tickCmds (d : Dial) (absRadius : ℤ) (tickWidth : Option ℚ) (i : ℚ) : List Cmd :=
  [Cmd.beginPath,
   Cmd.arc d.getCenterX d.getCenterY absRadius (d.sweepAngle i) (d.tickStop i tickWidth) false,
   Cmd.stroke]

/-- Line 289: `for (i = ...; i <= getRange(); i += tickSpacing)`, with fuel. -/
def ticksLoop (d : Dial) (absRadius : ℤ) (tickWidth : Option ℚ) (tickSpacing : ℚ) :
    ℕ → ℚ → Option (List Cmd)
  | fuel, i =>
    if i ≤ d.getRange then
      match fuel with
      | 0 => none
      | fuel + 1 =>
        (ticksLoop d absRadius tickWidth tickSpacing fuel (i + tickSpacing)).map
          (fun rest => tickCmds d absRadius tickWidth i ++ rest)
    else some []

/-- Lines 255-301: `drawTicks(options)`.

When `numTicks` is 0 the quotient of line 281 is `Infinity`, `-Infinity` or
`NaN`: it is not `== 0`, the loop body runs once if `0 <= getRange()`, and
`i` is not `<= getRange()` afterwards. -/
def drawTicks (fuel : ℕ) (d : Dial) (options : TicksOptions) :
    Option (Result TicksOptions) :=
  match options.radiusPercent, options.lengthPercent with
  | some radiusPercent, some lengthPercent =>
    if checkPercent (Arg.num radiusPercent) = false ∨
        checkPercent (Arg.num lengthPercent) = false then
      some ⟨false, [], options⟩
    else
      let color := orStr options.color d.bgcolor
      let numTicks := orNum options.numTicks d.tickmarks
      let bag : TicksOptions := { options with color := some color, numTicks := some numTicks }
      let absWidth := d.absWidth lengthPercent
      let absRadius := d.absRadius radiusPercent absWidth
      let styles : List Cmd :=
        [Cmd.setStrokeStyle (some color), Cmd.setLineWidth absWidth, Cmd.setLineCap "butt"]
      if numTicks = 0 then
        if 0 ≤ d.getRange then
          some ⟨true, styles ++ tickCmds d absRadius options.tickWidth 0, bag⟩
        else some ⟨true, styles, bag⟩
      else
        let tickSpacing : ℤ := ⌊d.getRange / numTicks⌋
        if tickSpacing = 0 then some ⟨false, styles, bag⟩
        else
          (ticksLoop d absRadius options.tickWidth tickSpacing fuel 0).map
            (fun ticks => ⟨true, styles ++ ticks, bag⟩)
  | _, _ => some ⟨false, [], options⟩

/-! ## drawScale -/

/-- The option bag of `drawScale`. -/
structure ScaleOptions where
  radiusPercent : Option ℚ
  fontSizePercent : Option ℚ
  color : Option String
deriving DecidableEq

/-- Lines 345-349: the body of the label loop at value `i`. -/
def labelCmds (env : Env) (d : Dial) (font : String) (radiusPercent labelRotation i : ℚ) :
    List Cmd :=
  let labelPosition : ℤ := -⌊env.measureText font (Txt.num i) / 2⌋
  [Cmd.fillText (Txt.num i) labelPosition (-(radiusPercent / 100) * d.getRadius),
   Cmd.rotate (deg2Rad labelRotation)]

/-- Lines 343-352: `for (i = ...; i <= maxvalue; i += tickSpacing)`, with fuel.
The state is `i` and `localRotation`; the result is the commands issued and
the final `localRotation`. -/
def scaleLoop (env : Env) (d : Dial) (font : String)
    (radiusPercent labelRotation tickSpacing : ℚ) : ℕ → ℚ → ℚ → Option (List Cmd × ℚ)
  | fuel, i, localRotation =>
    if i ≤ d.maxvalue then
      match fuel with
      | 0 => none
      | fuel + 1 =>
        (scaleLoop env d font radiusPercent labelRotation tickSpacing fuel
            (i + tickSpacing) (localRotation + labelRotation)).map
          (fun rest => (labelCmds env d font radiusPercent labelRotation i ++ rest.1, rest.2))
    else some ([], localRotation)

/-- Lines 309-360: `drawScale(options)`.

`numTicks` is 0 only when `tickmarks` is 0 and the range is 0; then
`tickSpacing` and `labelRotation` are `NaN`, the loop body runs once (at
`i = minvalue = maxvalue`) and both later rotations are by `NaN`.  When the
range is 0 and `tickmarks` is not, `tickSpacing` is 0 and the loop does not end,
whatever `labelRotation` is. -/
def drawScale (env : Env) (fuel : ℕ) (d : Dial) (options : ScaleOptions) :
    Option (Result ScaleOptions) :=
  match options.radiusPercent, options.fontSizePercent with
  | some radiusPercent, some fontSizePercent =>
    if checkPercent (Arg.num radiusPercent) = false ∨
        checkPercent (Arg.num fontSizePercent) = false then
      some ⟨false, [], options⟩
    else
      let numTicks := if d.tickmarks ≠ 0 then d.tickmarks else d.getRange / 10
      let fontSize : ℤ := ⌊d.getRadius * (fontSizePercent / 100)⌋
      let font := toString fontSize ++ "px " ++ d.fontfamily
      let localRotation := d.rotation + 90
      let setup : List Cmd :=
        [Cmd.setFont font, Cmd.setFillStyle options.color, Cmd.setTextBaseline "top",
         Cmd.translate d.getCenterX d.getCenterY,
         Cmd.rotate (deg2Rad localRotation)]
      if numTicks = 0 then
        let labelPosition : ℤ := -⌊env.measureText font (Txt.num d.minvalue) / 2⌋
        some ⟨true,
          setup ++
          [Cmd.fillText (Txt.num d.minvalue) labelPosition
              (-(radiusPercent / 100) * d.getRadius),
           Cmd.rotate Angle.nonFinite,
           Cmd.rotate Angle.nonFinite,
           Cmd.translate (-d.getCenterX) (-d.getCenterY)], options⟩
      else
        let tickSpacing : ℤ := ⌊d.getRange / numTicks⌋
        let labelRotation := (tickSpacing : ℚ) / d.getRange * d.sweep
        (scaleLoop env d font radiusPercent labelRotation tickSpacing fuel
            d.minvalue localRotation).map
          (fun loop =>
            ⟨true,
              setup ++ loop.1 ++
              [Cmd.rotate (deg2Rad (360 - loop.2)),
               Cmd.translate (-d.getCenterX) (-d.getCenterY)], options⟩)
  | _, _ => some ⟨false, [], options⟩

/-! ## drawValue -/

/-- The option bag of `drawValue`. -/
structure ValueOptions where
  value : Option ℚ
  units : Option String
  fontSizePercent : Option ℚ
  fgcolor : Option String
  bgcolor : Option String
  centered : Option Bool
deriving DecidableEq

/-- A text argument built from an optional string. -/
def Txt.ofUnits (u : Option String) : Txt :=
  match u with
  | some s => Txt.str s
  | none => Txt.undefined

/-- Lines 371-448: `drawValue(options)`. -/
def drawValue (env : Env) (d : Dial) (options : ValueOptions) : Result ValueOptions :=
  let value0 := if d.value ≠ 0 then some d.value else options.value
  let bag0 : ValueOptions := { options with value := value0 }
  match value0 with
  | none => ⟨false, [], bag0⟩
  | some value =>
    if checkValue d (Arg.num value) = false then ⟨false, [], bag0⟩
    else
      let units := if d.units ≠ "" then some d.units else options.units
      let centered := options.centered.getD false
      let fgcolor := orStr options.fgcolor "#fff"
      let fontSizePercent := orNum options.fontSizePercent 20
      let fontSize : ℤ := ⌊d.getRadius * (fontSizePercent / 100)⌋
      let font := toString fontSize ++ "px sans-serif"
      let textWidth :=
        if env.measureText font (Txt.num value) < env.measureText font (Txt.ofUnits units)
        then env.measureText font (Txt.ofUnits units)
        else env.measureText font (Txt.num value)
      let theta := 360 - (d.rotation - (360 - d.sweep) / 2)
      let towardCenterFudge := d.getWidth / 5
      let textX : ℤ :=
        if centered then 0
        else ⌊(d.getRadius - towardCenterFudge) * env.cos (deg2Rad theta)⌋
      let textY : ℤ :=
        if centered then 0
        else ⌊(d.getRadius - towardCenterFudge) * env.sin (deg2Rad theta)⌋
      let pill : List Cmd :=
        match options.bgcolor with
        | some c =>
          if c = "" then []
          else
            [Cmd.beginPath, Cmd.setStrokeStyle (some c), Cmd.setLineCap "round",
             Cmd.setLineWidth (fontSize * (11 / 5)),
             Cmd.moveTo (textX - textWidth / 2) (-textY - 1),
             Cmd.lineTo (textX + textWidth / 2) (-textY - 1),
             Cmd.stroke]
        | none => []
      ⟨true,
        [Cmd.setFont font, Cmd.translate d.getCenterX d.getCenterY] ++ pill ++
        [Cmd.setFillStyle (some fgcolor), Cmd.setTextAlign "center",
         Cmd.setTextBaseline "middle",
         Cmd.fillText (Txt.num value) textX (-textY),
         Cmd.setTextBaseline "middle",
         Cmd.fillText (Txt.ofUnits units) textX (-textY + fontSize),
         Cmd.translate (-d.getCenterX) (-d.getCenterY)],
        { bag0 with
            units := units, centered := some centered, fgcolor := some fgcolor,
            fontSizePercent := some fontSizePercent }⟩

/-! ## drawPointer -/

/-- The option bag of `drawPointer`. -/
structure PointerOptions where
  value : Option ℚ
  radiusPercent : Option ℚ
  color : Option String
  style : Option String
deriving DecidableEq

/-- Line 481: `this.rotation + 90 + options.value/this.getRange() * this.sweep`,
for the offset `x = options.value - minvalue` of line 479. -/
def Dial.pointerDegrees (d : Dial) (x : ℚ) : ℚ :=
  d.rotation + 90 + x / d.getRange * d.sweep

/-- Lines 458-522: `drawPointer(options)`.  With a zero range the quotient of
line 481 is not finite, and so are both rotations. -/
def drawPointer (d : Dial) (options : PointerOptions) : Result PointerOptions :=
  let value0 := if d.value ≠ 0 then some d.value else options.value
  let radiusPercent := orNum options.radiusPercent 90
  let bag0 : PointerOptions :=
    { options with value := value0, radiusPercent := some radiusPercent }
  match value0 with
  | none => ⟨false, [], bag0⟩
  | some value =>
    if checkValue d (Arg.num value) = false ∨ checkPercent (Arg.num radiusPercent) = false then
      ⟨false, [], bag0⟩
    else
      let color := orStr options.color "#f33"
      let value1 := value - d.minvalue
      let rotation := d.pointerDegrees value1
      let turn : Angle := if d.getRange = 0 then Angle.nonFinite else deg2Rad rotation
      let back : Angle :=
        if d.getRange = 0 then Angle.nonFinite else deg2Rad (360 - rotation)
      ⟨true,
        [Cmd.translate d.getCenterX d.getCenterY,
         Cmd.rotate turn,
         Cmd.beginPath,
         Cmd.setFillStyle (some color),
         Cmd.setStrokeStyle (some color),
         Cmd.moveTo (-d.getWidth / 40) 0,
         Cmd.lineTo 0 (-d.getWidth / 2 * radiusPercent / 100),
         Cmd.lineTo (d.getWidth / 40) 0,
         Cmd.closePath,
         Cmd.fill,
         Cmd.beginPath,
         Cmd.moveTo 0 0,
         Cmd.setLineWidth (d.getRadius / 10),
         Cmd.setLineCap "round",
         Cmd.lineTo 0 (d.getWidth / 15),
         Cmd.stroke,
         Cmd.beginPath,
         Cmd.arc 0 0 (d.getRadius / 10) (Angle.ofDeg 0) twoPi false,
         Cmd.fill,
         Cmd.beginPath,
         Cmd.setFillStyle (some "#111"),
         Cmd.arc 0 0 (d.getRadius / 40) (Angle.ofDeg 0) twoPi false,
         Cmd.fill,
         Cmd.rotate back,
         Cmd.translate (-d.getCenterX) (-d.getCenterY)],
        { bag0 with color := some color, value := some value1 }⟩

/-! ## Observing the transform commands -/

/-- The translations a command list performs, in order. -/
def translations : List Cmd → List (ℚ × ℚ)
  | [] => []
  | Cmd.translate x y :: cs => (x, y) :: translations cs
  | _ :: cs => translations cs

/-- The rotations a command list performs, in order. -/
def rotations : List Cmd → List Angle
  | [] => []
  | Cmd.rotate a :: cs => a :: rotations cs
  | _ :: cs => rotations cs

/-- The sum of the translation vectors of a command list. -/
def netTranslation (cs : List Cmd) : ℚ × ℚ :=
  (translations cs).foldr (fun t acc => (t.1 + acc.1, t.2 + acc.2)) (0, 0)

/-- The sum, in degrees, of a list of angles; `none` if one is not finite. -/
def sumDegrees : List Angle → Option ℚ
  | [] => some 0
  | Angle.ofDeg x :: as => (sumDegrees as).map (fun s => x + s)
  | Angle.nonFinite :: _ => none

/-- The sum, in degrees, of the rotations of a command list. -/
def netRotation (cs : List Cmd) : Option ℚ := sumDegrees (rotations cs)

/-- The arcs a command list draws, in order. -/
def arcs : List Cmd → List Cmd
  | [] => []
  | Cmd.arc x y r a b c :: cs => Cmd.arc x y r a b c :: arcs cs
  | _ :: cs => arcs cs

/-- The number of `stroke` commands in a command list. -/
def strokeCount : List Cmd → ℕ
  | [] => 0
  | Cmd.stroke :: cs => strokeCount cs + 1
  | _ :: cs => strokeCount cs

/-- The transform commands of a call cancel: the rotation angles sum to a
multiple of 360 degrees, the translations sum to `(0,0)`, and a call that
returned false issued no transform command at all. -/
def TransformsCancel (ret : Bool) (cmds : List Cmd) : Prop :=
  (∃ k : ℤ, netRotation cmds = some (360 * (k : ℚ))) ∧
  netTranslation cmds = (0, 0) ∧
  (ret = false → translations cmds = [] ∧ rotations cmds = [])

/-! ## Concrete dials and option bags used in the examples -/

/-- The dial of the specification's examples: range 0..100, sweep 270,
rotation 135, on a canvas 300 wide. -/
def gauge : Dial :=
  { value := 0, units := "", sweep := 270, rotation := 135, minvalue := 0, maxvalue := 100,
    tickmarks := 0, fontfamily := "sans-serif", bgcolor := "black", width := 300,
    canvasName := "dial" }

/-- A dial with range 0..10. -/
def gaugeTen : Dial := { gauge with maxvalue := 10 }

/-- A dial with range 10..20, so that `minvalue` is not 0. -/
def gaugeOffset : Dial := { gauge with minvalue := 10, maxvalue := 20 }

/-- A dial with range 0..10 and 11 tick marks. -/
def gaugeCrowded : Dial := { gauge with maxvalue := 10, tickmarks := 11 }

/-- The bag `{radiusPercent: 90, lengthPercent: 5, numTicks: n, tickWidth: 1}`. -/
def ticksBag (n : ℚ) : TicksOptions :=
  { radiusPercent := some 90, lengthPercent := some 5, numTicks := some n,
    tickWidth := some 1, color := none }

/-- The bag `{start, stop, radiusPercent: 50, widthPercent: 10}`. -/
def arcBag (start stop : ℚ) : ArcOptions :=
  { start := some start, stop := some stop, radiusPercent := some 50,
    widthPercent := some 10, color := none, lineCap := none }

/-- The bag `{radiusPercent: 80, fontSizePercent: 10}`. -/
def scaleBag : ScaleOptions :=
  { radiusPercent := some 80, fontSizePercent := some 10, color := none }

/-- The bag `{value: v}`. -/
def pointerBag (v : ℚ) : PointerOptions :=
  { value := some v, radiusPercent := none, color := none, style := none }

/-- The bag `{value: v}`. -/
def valueBag (v : ℚ) : ValueOptions :=
  { value := some v, units := none, fontSizePercent := none, fgcolor := none,
    bgcolor := none, centered := none }

/-- The bag `{value: v, radiusPercent: p}`. -/
def pointerBagRadius (v p : ℚ) : PointerOptions :=
  { value := some v, radiusPercent := some p, color := none, style := none }

/-- The dial of the examples with its current value set to `c`. -/
def gaugeAt (c : ℚ) : Dial := { gauge with value := c }

/-- The bag `{start, stop, radiusPercent: rp, widthPercent: wp}`. -/
def arcBagPercent (start stop rp wp : ℚ) : ArcOptions :=
  { start := some start, stop := some stop, radiusPercent := some rp,
    widthPercent := some wp, color := none, lineCap := none }

/-- A surface on which every text is 10 wide, with a constant `cos` and `sin`. -/
def flatEnv : Env :=
  { measureText := fun _ _ => 10, cos := fun _ => 0, sin := fun _ => 0 }

/-! ## Validation: theorems -/

/-- C1, as stated, fails at `NaN`: it is present and is not a number within
the range, yet neither test of line 530 holds for it and `checkValue` returns
true. -/
theorem checkValue_nan_true :
    gauge.minvalue ≤ gauge.maxvalue ∧
    Arg.nan ≠ Arg.missing ∧
    (¬ ∃ x : ℚ, Arg.nan = Arg.num x ∧ gauge.minvalue ≤ x ∧ x ≤ gauge.maxvalue) ∧
    checkValue gauge Arg.nan = true := by
  refine ⟨by norm_num [gauge], fun h => (by cases h), ?_, rfl⟩
  rintro ⟨x, hx, _⟩
  cases hx

/-- C1, amended: on a dial with `minvalue ≤ maxvalue`, for every argument other
than `NaN`, `checkValue` returns true exactly when the argument is present and
is a number inside the inclusive range; both bounds are accepted and values
below, above, or missing are rejected. -/
theorem checkValue_iff_in_range_of_ne_nan (d : Dial) (h : d.minvalue ≤ d.maxvalue) :
    (∀ v : Arg, v ≠ Arg.nan →
        (checkValue d v = true ↔
          ∃ x : ℚ, v = Arg.num x ∧ d.minvalue ≤ x ∧ x ≤ d.maxvalue)) ∧
    checkValue d (Arg.num d.minvalue) = true ∧
    checkValue d (Arg.num d.maxvalue) = true ∧
    (∀ x : ℚ, x < d.minvalue → checkValue d (Arg.num x) = false) ∧
    (∀ x : ℚ, d.maxvalue < x → checkValue d (Arg.num x) = false) ∧
    checkValue d Arg.missing = false := by
  refine ⟨?_, ?_, ?_, ?_, ?_, rfl⟩
  · intro v hv
    cases v with
    | missing => simp [checkValue]
    | nan => exact absurd rfl hv
    | posInf => simp [checkValue]
    | negInf => simp [checkValue]
    | num x =>
      simp only [checkValue, Arg.num.injEq, exists_eq_left']
      by_cases hx : x < d.minvalue ∨ x > d.maxvalue
      · simp only [hx, if_true]
        constructor
        · intro hf; cases hf
        · rintro ⟨h1, h2⟩
          rcases hx with hx | hx
          · exact absurd h1 (not_le.mpr hx)
          · exact absurd h2 (not_le.mpr hx)
      · simp only [hx, if_false, true_iff]
        push_neg at hx
        exact hx
  · simp [checkValue, h]
  · simp [checkValue, h]
  · intro x hx
    simp [checkValue, hx]
  · intro x hx
    simp [checkValue, hx]

/-- C2, as stated, fails at `NaN`: it is present and is not a number in
`[1,100]`, yet neither test of line 545 holds for it and `checkPercent` returns
true. -/
theorem checkPercent_nan_true :
    Arg.nan ≠ Arg.missing ∧
    (¬ ∃ x : ℚ, Arg.nan = Arg.num x ∧ 1 ≤ x ∧ x ≤ 100) ∧
    checkPercent Arg.nan = true := by
  refine ⟨fun h => (by cases h), ?_, rfl⟩
  rintro ⟨x, hx, _⟩
  cases hx

/-- C2, amended: for every argument other than `NaN`, `checkPercent` returns
true exactly when the argument is present and is a number in `[1,100]`; it
rejects every `p ≤ 0` (so 0), every `p > 100` (so 101) and a missing argument,
and accepts 1 and 100. -/
theorem checkPercent_iff_in_1_100_of_ne_nan :
    (∀ p : Arg, p ≠ Arg.nan →
        (checkPercent p = true ↔ ∃ x : ℚ, p = Arg.num x ∧ 1 ≤ x ∧ x ≤ 100)) ∧
    (∀ x : ℚ, x ≤ 0 → checkPercent (Arg.num x) = false) ∧
    checkPercent (Arg.num 0) = false ∧
    (∀ x : ℚ, 100 < x → checkPercent (Arg.num x) = false) ∧
    checkPercent (Arg.num 101) = false ∧
    checkPercent (Arg.num 1) = true ∧
    checkPercent (Arg.num 100) = true ∧
    checkPercent Arg.missing = false := by
  have hlt : ∀ x : ℚ, x ≤ 0 → checkPercent (Arg.num x) = false := by
    intro x hx
    have : x < 1 := lt_of_le_of_lt hx one_pos
    simp [checkPercent, this]
  have hgt : ∀ x : ℚ, 100 < x → checkPercent (Arg.num x) = false := by
    intro x hx
    simp [checkPercent, hx]
  refine ⟨?_, hlt, hlt 0 le_rfl, hgt, hgt 101 (by norm_num), ?_, ?_, rfl⟩
  · intro p hp
    cases p with
    | missing => simp [checkPercent]
    | nan => exact absurd rfl hp
    | posInf => simp [checkPercent]
    | negInf => simp [checkPercent]
    | num x =>
      simp only [checkPercent, Arg.num.injEq, exists_eq_left']
      by_cases hx : x > 100 ∨ x < 1
      · simp only [hx, if_true]
        constructor
        · intro hf; cases hf
        · rintro ⟨h1, h2⟩
          rcases hx with hx | hx
          · exact absurd h2 (not_le.mpr hx)
          · exact absurd h1 (not_le.mpr hx)
      · simp only [hx, if_false, true_iff]
        push_neg at hx
        exact ⟨hx.2, hx.1⟩
  · norm_num [checkPercent]
  · norm_num [checkPercent]

/-- C1 amended, at the dial 0..100: the bounds 0 and 100 pass, 101 and a missing
value do not, and the number 50 passes as a number within the range. -/
theorem checkValue_iff_in_range_of_ne_nan_witness :
    gauge.minvalue ≤ gauge.maxvalue ∧
    Arg.num 50 ≠ Arg.nan ∧
    checkValue gauge (Arg.num 50) = true ∧
    checkValue gauge (Arg.num gauge.minvalue) = true ∧
    checkValue gauge (Arg.num gauge.maxvalue) = true ∧
    checkValue gauge (Arg.num 101) = false ∧
    checkValue gauge Arg.missing = false := by
  have hle : gauge.minvalue ≤ gauge.maxvalue := by norm_num [gauge]
  have hne : Arg.num 50 ≠ Arg.nan := fun h => by cases h
  have h := checkValue_iff_in_range_of_ne_nan gauge hle
  exact ⟨hle, hne,
    (h.1 (Arg.num 50) hne).mpr ⟨50, rfl, by norm_num [gauge], by norm_num [gauge]⟩,
    h.2.1, h.2.2.1, h.2.2.2.2.1 101 (by norm_num [gauge]), h.2.2.2.2.2⟩

/-- C2 amended, at the percentage 50. -/
theorem checkPercent_iff_in_1_100_of_ne_nan_witness :
    Arg.num 50 ≠ Arg.nan ∧ checkPercent (Arg.num 50) = true := by
  have hne : Arg.num 50 ≠ Arg.nan := fun h => by cases h
  exact ⟨hne, (checkPercent_iff_in_1_100_of_ne_nan.1 (Arg.num 50) hne).mpr
    ⟨50, rfl, by norm_num, by norm_num⟩⟩

/-! ## Helper lemmas on command lists -/

theorem arcs_append (xs ys : List Cmd) : arcs (xs ++ ys) = arcs xs ++ arcs ys := by
  induction xs with
  | nil => rfl
  | cons c cs ih => cases c <;> simp [arcs, ih]

theorem strokeCount_append (xs ys : List Cmd) :
    strokeCount (xs ++ ys) = strokeCount xs + strokeCount ys := by
  induction xs with
  | nil => simp [strokeCount]
  | cons c cs ih =>
    cases c <;> simp [strokeCount, ih]
    omega

theorem translations_append (xs ys : List Cmd) :
    translations (xs ++ ys) = translations xs ++ translations ys := by
  induction xs with
  | nil => rfl
  | cons c cs ih => cases c <;> simp [translations, ih]

theorem rotations_append (xs ys : List Cmd) :
    rotations (xs ++ ys) = rotations xs ++ rotations ys := by
  induction xs with
  | nil => rfl
  | cons c cs ih => cases c <;> simp [rotations, ih]

theorem getRange_pos (d : Dial) (hr : d.minvalue < d.maxvalue) : 0 < d.getRange := by
  unfold Dial.getRange
  linarith

theorem checkPercent_of_bounds (p : ℚ) (h1 : 1 ≤ p) (h2 : p ≤ 100) :
    checkPercent (Arg.num p) = true := by
  have : ¬ (p > 100 ∨ p < 1) := by
    push_neg
    exact ⟨h2, h1⟩
  simp [checkPercent, this]

/-! ## The value-to-angle mapping -/

/-- C3: on a dial with `minvalue < maxvalue` and a positive sweep, the degrees
`drawArc` maps a value to, `(v - minvalue) / range * sweep + rotation`, are
monotonic in `v` on the range, equal `rotation` at `minvalue` and
`rotation + sweep` at `maxvalue`, and are the angles of the arc `drawArc`
issues. -/
theorem sweepDegrees_monotone_endpoints (d : Dial) (hr : d.minvalue < d.maxvalue)
    (hs : 0 < d.sweep) :
    (∀ v1 v2 : ℚ, d.minvalue ≤ v1 → v1 ≤ v2 → v2 ≤ d.maxvalue →
        d.sweepDegrees (v1 - d.minvalue) ≤ d.sweepDegrees (v2 - d.minvalue)) ∧
    d.sweepDegrees (d.minvalue - d.minvalue) = d.rotation ∧
    d.sweepDegrees (d.maxvalue - d.minvalue) = d.rotation + d.sweep ∧
    (∀ (o : ArcOptions) (v1 v2 : ℚ), o.start = some v1 → o.stop = some v2 →
        (drawArc d o).ret = true →
        ∃ r : ℚ, arcs (drawArc d o).cmds =
          [Cmd.arc d.getCenterX d.getCenterY r
            (deg2Rad (d.sweepDegrees (v1 - d.minvalue)))
            (deg2Rad (d.sweepDegrees (v2 - d.minvalue))) false]) := by
  have hpos : 0 < d.getRange := getRange_pos d hr
  have hne : d.getRange ≠ 0 := ne_of_gt hpos
  refine ⟨?_, ?_, ?_, ?_⟩
  · intro v1 v2 _ h12 _
    unfold Dial.sweepDegrees
    have h1 : (v1 - d.minvalue) / d.getRange ≤ (v2 - d.minvalue) / d.getRange :=
      div_le_div_of_nonneg_right (by linarith) (le_of_lt hpos)
    have h2 := mul_le_mul_of_nonneg_right h1 (le_of_lt hs)
    linarith
  · simp [Dial.sweepDegrees]
  · have : (d.maxvalue - d.minvalue) / d.getRange = 1 := by
      unfold Dial.getRange at hne ⊢
      exact div_self hne
    unfold Dial.sweepDegrees
    rw [this]
    ring
  · intro o v1 v2 h1 h2 hret
    unfold drawArc at hret ⊢
    rw [h1, h2] at hret ⊢
    cases hrp : o.radiusPercent with
    | none => rw [hrp] at hret; simp at hret
    | some rp =>
      cases hwp : o.widthPercent with
      | none => rw [hrp, hwp] at hret; simp at hret
      | some wp =>
        rw [hrp, hwp] at hret
        simp only [] at hret ⊢
        split_ifs at hret ⊢ with hc
        exact ⟨(d.absRadius rp (d.absWidth wp) : ℤ), by simp [arcs, Dial.sweepAngle, hne]⟩

/-- C3, at the dial 0..100 with sweep 270 and rotation 135: the mapping sends
0 to 135 and 100 to 405. -/
theorem sweepDegrees_monotone_endpoints_witness :
    gauge.minvalue < gauge.maxvalue ∧ 0 < gauge.sweep ∧
    gauge.sweepDegrees (gauge.minvalue - gauge.minvalue) = gauge.rotation ∧
    gauge.sweepDegrees (gauge.maxvalue - gauge.minvalue) = gauge.rotation + gauge.sweep := by
  have hr : gauge.minvalue < gauge.maxvalue := by norm_num [gauge]
  have hs : 0 < gauge.sweep := by norm_num [gauge]
  have h := sweepDegrees_monotone_endpoints gauge hr hs
  exact ⟨hr, hs, h.2.1, h.2.2.1⟩

/-! ## drawTicks -/

theorem arcs_bind_tickCmds (d : Dial) (absRadius : ℤ) (tw : Option ℚ) (f : ℕ → ℚ)
    (l : List ℕ) :
    arcs (l.flatMap (fun j => tickCmds d absRadius tw (f j))) =
      l.map (fun j => Cmd.arc d.getCenterX d.getCenterY absRadius (d.sweepAngle (f j))
        (d.tickStop (f j) tw) false) := by
  induction l with
  | nil => rfl
  | cons a l ih =>
    rw [List.flatMap_cons, arcs_append, ih]
    simp [tickCmds, arcs]

theorem strokeCount_bind_tickCmds (d : Dial) (absRadius : ℤ) (tw : Option ℚ) (f : ℕ → ℚ)
    (l : List ℕ) :
    strokeCount (l.flatMap (fun j => tickCmds d absRadius tw (f j))) = l.length := by
  induction l with
  | nil => rfl
  | cons a l ih =>
    rw [List.flatMap_cons, strokeCount_append, ih]
    simp [tickCmds, strokeCount]
    omega

/-- The tick loop started at `i` runs its body at `i, i + ts, ...`, `m` times, when
the first `m` offsets are at most the range and the next one is not. -/
theorem ticksLoop_eq (d : Dial) (absRadius : ℤ) (tw : Option ℚ) (ts : ℚ) :
    ∀ (m : ℕ) (i : ℚ) (fuel : ℕ), (∀ j : ℕ, j < m → i + j * ts ≤ d.getRange) →
      d.getRange < i + m * ts → m ≤ fuel →
      ticksLoop d absRadius tw ts fuel i =
        some ((List.range m).flatMap (fun j => tickCmds d absRadius tw (i + j * ts))) := by
  intro m
  induction m with
  | zero =>
    intro i fuel _ hgt _
    have hnot : ¬ i ≤ d.getRange := by
      simp at hgt
      exact not_le.mpr hgt
    unfold ticksLoop
    simp [hnot]
  | succ m ih =>
    intro i fuel hle hgt hfuel
    have hi : i ≤ d.getRange := by
      have := hle 0 (Nat.succ_pos m)
      simpa using this
    obtain ⟨f, rfl⟩ : ∃ f, fuel = f + 1 := ⟨fuel - 1, by omega⟩
    have hrec := ih (i + ts) f
      (fun j hj => by
        have := hle (j + 1) (Nat.succ_lt_succ hj)
        push_cast at this
        linarith)
      (by push_cast at hgt; linarith)
      (by omega)
    unfold ticksLoop
    simp only [hi, if_true, hrec, Option.map_some']
    rw [List.range_succ_eq_map, List.flatMap_cons, List.flatMap_map]
    congr 2
    · simp
    · apply congrArg
      funext j
      simp only [Function.comp, Nat.succ_eq_add_one]
      congr 1
      push_cast
      ring

/-- C4, as stated, fails at `numTicks = range`: on the dial 0..10 with
`numTicks = 10` the spacing is 1, and `drawTicks` returns true after stroking
11 ticks. -/
theorem drawTicks_numTicks_eq_range_draws :
    gaugeTen.minvalue < gaugeTen.maxvalue ∧ gaugeTen.getRange ≤ 10 ∧
    (drawTicks 11 gaugeTen (ticksBag 10)).map (fun r => (r.ret, strokeCount r.cmds)) =
      some (true, 11) := by
  with_unfolding_all decide

/-- C4, amended: when `numTicks` is greater than the range (of a dial with
`minvalue < maxvalue`, both percents in `[1,100]`), `drawTicks` returns false,
whatever the fuel, after setting the stroke style only: no arc, no stroke. -/
theorem drawTicks_numTicks_gt_range_false (d : Dial) (o : TicksOptions) (fuel : ℕ)
    (rp lp n : ℚ) (hr : d.minvalue < d.maxvalue)
    (hrp : o.radiusPercent = some rp) (hrp1 : 1 ≤ rp) (hrp2 : rp ≤ 100)
    (hlp : o.lengthPercent = some lp) (hlp1 : 1 ≤ lp) (hlp2 : lp ≤ 100)
    (hn : o.numTicks = some n) (hgt : d.getRange < n) :
    ∃ r, drawTicks fuel d o = some r ∧ r.ret = false ∧ arcs r.cmds = [] ∧
      strokeCount r.cmds = 0 := by
  have hpos : 0 < d.getRange := getRange_pos d hr
  have hnpos : 0 < n := lt_trans hpos hgt
  have hn0 : n ≠ 0 := ne_of_gt hnpos
  have hfloor : ⌊d.getRange / n⌋ = 0 := by
    rw [Int.floor_eq_zero_iff]
    exact ⟨le_of_lt (div_pos hpos hnpos), (div_lt_one hnpos).mpr hgt⟩
  have h1 := checkPercent_of_bounds rp hrp1 hrp2
  have h2 := checkPercent_of_bounds lp hlp1 hlp2
  unfold drawTicks
  rw [hrp, hlp]
  simp [h1, h2, hn, orNum, hn0, hfloor, arcs, strokeCount]

/-- C4 amended, on the dial 0..10 with `numTicks = 11`. -/
theorem drawTicks_numTicks_gt_range_false_witness :
    ∃ r, drawTicks 0 gaugeTen (ticksBag 11) = some r ∧ r.ret = false ∧ arcs r.cmds = [] ∧
      strokeCount r.cmds = 0 :=
  drawTicks_numTicks_gt_range_false gaugeTen (ticksBag 11) 0 90 5 11
    (by norm_num [gaugeTen, gauge]) rfl (by norm_num) (by norm_num) rfl (by norm_num)
    (by norm_num) rfl (by norm_num [gaugeTen, gauge, Dial.getRange])

/-- C5, as stated, fails when `numTicks` does not divide the range: on the dial
0..10 with `numTicks = 4` the spacing is 2 and `drawTicks` strokes 6 ticks, not
5. -/
theorem drawTicks_numTicks_four_of_ten_six_ticks :
    (drawTicks 6 gaugeTen (ticksBag 4)).map (fun r => (r.ret, strokeCount r.cmds)) =
      some (true, 6) := by
  with_unfolding_all decide

/-- C5, amended: on a dial whose range is a positive integer `R`, with both
percents in `[1,100]` and a positive integer `numTicks = N < R`, `drawTicks`
returns true (given fuel for its iterations) and strokes exactly
`floor(R / tickSpacing) + 1` arcs, `tickSpacing = floor(R / N)`, the `k`-th
starting at `(k * tickSpacing) / range * sweep + rotation` degrees; these are
`N + 1` arcs when `N` divides `R`. -/
theorem drawTicks_tick_count (d : Dial) (o : TicksOptions) (R N : ℕ) (rp lp : ℚ)
    (fuel : ℕ) (hR : d.getRange = R) (hN : 0 < N) (hNR : N < R)
    (hrp : o.radiusPercent = some rp) (hrp1 : 1 ≤ rp) (hrp2 : rp ≤ 100)
    (hlp : o.lengthPercent = some lp) (hlp1 : 1 ≤ lp) (hlp2 : lp ≤ 100)
    (hn : o.numTicks = some (N : ℚ)) (hfuel : R / (R / N) + 1 ≤ fuel) :
    ∃ r, drawTicks fuel d o = some r ∧ r.ret = true ∧
      arcs r.cmds = (List.range (R / (R / N) + 1)).map (fun k : ℕ =>
        Cmd.arc d.getCenterX d.getCenterY (d.absRadius rp (d.absWidth lp))
          (deg2Rad (d.sweepDegrees ((k : ℚ) * ((R / N : ℕ) : ℚ))))
          (d.tickStop ((k : ℚ) * ((R / N : ℕ) : ℚ)) o.tickWidth) false) ∧
      strokeCount r.cmds = R / (R / N) + 1 ∧
      (N ∣ R → R / (R / N) + 1 = N + 1) := by
  have hRpos : 0 < R := lt_trans hN hNR
  have hTpos : 0 < R / N := Nat.div_pos (le_of_lt hNR) hN
  have hrange0 : d.getRange ≠ 0 := by
    rw [hR]
    exact_mod_cast (ne_of_gt hRpos)
  have hN0 : (N : ℚ) ≠ 0 := by exact_mod_cast (ne_of_gt hN)
  have hfloor : ⌊d.getRange / (N : ℚ)⌋ = ((R / N : ℕ) : ℤ) := by
    rw [hR, Rat.floor_natCast_div_natCast]
    norm_cast
  have hfloor0 : ((R / N : ℕ) : ℤ) ≠ 0 := by exact_mod_cast (ne_of_gt hTpos)
  have h1 := checkPercent_of_bounds rp hrp1 hrp2
  have h2 := checkPercent_of_bounds lp hlp1 hlp2
  have hloop := ticksLoop_eq d (d.absRadius rp (d.absWidth lp)) o.tickWidth
    ((R / N : ℕ) : ℚ) (R / (R / N) + 1) 0 fuel
    (fun j hj => by
      rw [hR, zero_add]
      have hj1 : j ≤ R / (R / N) := Nat.lt_succ_iff.mp hj
      have : j * (R / N) ≤ R :=
        le_trans (Nat.mul_le_mul_right _ hj1) (Nat.div_mul_le_self R (R / N))
      exact_mod_cast this)
    (by
      rw [hR, zero_add]
      have : R < (R / (R / N) + 1) * (R / N) := by
        rw [Nat.mul_comm]
        exact Nat.lt_mul_div_succ R hTpos
      exact_mod_cast this)
    hfuel
  simp only [zero_add] at hloop
  have hdt : drawTicks fuel d o = some
      ⟨true,
        [Cmd.setStrokeStyle (some (orStr o.color d.bgcolor)),
          Cmd.setLineWidth (d.absWidth lp), Cmd.setLineCap "butt"] ++
        (List.range (R / (R / N) + 1)).flatMap (fun j =>
          tickCmds d (d.absRadius rp (d.absWidth lp)) o.tickWidth ((j : ℚ) * ((R / N : ℕ) : ℚ))),
        { o with color := some (orStr o.color d.bgcolor), numTicks := some (N : ℚ) }⟩ := by
    unfold drawTicks
    rw [hrp, hlp]
    simp only [h1, h2, hn, orNum, hN0, hfloor, hfloor0, if_false, Bool.true_eq_false,
      or_self, Int.cast_natCast, hloop, Option.map_some']
  refine ⟨_, hdt, rfl, ?_, ?_, ?_⟩
  · rw [arcs_append, arcs_bind_tickCmds]
    simp [arcs, Dial.sweepAngle, hrange0]
  · rw [strokeCount_append, strokeCount_bind_tickCmds]
    simp [strokeCount]
  · intro hdvd
    rw [Nat.div_div_self hdvd (ne_of_gt hRpos)]

/-- C5 amended, on the dial 0..100 with `numTicks = 10`: spacing 10 and exactly
11 ticks. -/
theorem drawTicks_tick_count_witness :
    ∃ r, drawTicks 11 gauge (ticksBag 10) = some r ∧ r.ret = true ∧
      arcs r.cmds = (List.range (100 / (100 / 10) + 1)).map (fun k : ℕ =>
        Cmd.arc gauge.getCenterX gauge.getCenterY (gauge.absRadius 90 (gauge.absWidth 5))
          (deg2Rad (gauge.sweepDegrees ((k : ℚ) * ((100 / 10 : ℕ) : ℚ))))
          (gauge.tickStop ((k : ℚ) * ((100 / 10 : ℕ) : ℚ)) (ticksBag 10).tickWidth) false) ∧
      strokeCount r.cmds = 100 / (100 / 10) + 1 ∧
      (10 ∣ 100 → 100 / (100 / 10) + 1 = 10 + 1) :=
  drawTicks_tick_count gauge (ticksBag 10) 100 10 90 5 11
    (by norm_num [gauge, Dial.getRange]) (by norm_num) (by norm_num)
    rfl (by norm_num) (by norm_num) rfl (by norm_num) (by norm_num)
    (by norm_num [ticksBag]) (by norm_num)

/-! ## Transform bookkeeping -/

theorem sumDegrees_append (xs ys : List Angle) :
    sumDegrees (xs ++ ys) =
      (sumDegrees xs).bind (fun a => (sumDegrees ys).map (fun b => a + b)) := by
  induction xs with
  | nil =>
    cases h : sumDegrees ys <;> simp [sumDegrees, h]
  | cons a as ih =>
    cases a with
    | nonFinite => simp [sumDegrees]
    | ofDeg x =>
      show Option.map (fun s => x + s) (sumDegrees (as ++ ys)) = _
      rw [ih]
      simp only [sumDegrees]
      cases sumDegrees as <;> cases sumDegrees ys <;> simp [add_assoc]

/-- The label loop issues no translation, and its rotations add up to the
growth of `localRotation`. -/
theorem scaleLoop_transforms (env : Env) (d : Dial) (font : String) (rp lrot ts : ℚ) :
    ∀ (fuel : ℕ) (i lr : ℚ) (res : List Cmd × ℚ),
      scaleLoop env d font rp lrot ts fuel i lr = some res →
      translations res.1 = [] ∧ sumDegrees (rotations res.1) = some (res.2 - lr) := by
  intro fuel
  induction fuel with
  | zero =>
    intro i lr res h
    unfold scaleLoop at h
    by_cases hi : i ≤ d.maxvalue
    · simp [hi] at h
    · simp only [hi, if_false, Option.some.injEq] at h
      subst h
      simp [translations, rotations, sumDegrees]
  | succ fuel ih =>
    intro i lr res h
    unfold scaleLoop at h
    by_cases hi : i ≤ d.maxvalue
    · simp only [hi, if_true, Option.map_eq_some'] at h
      obtain ⟨rest, hrest, rfl⟩ := h
      obtain ⟨ht, hs⟩ := ih _ _ _ hrest
      constructor
      · rw [translations_append, ht]
        simp [labelCmds, translations]
      · rw [rotations_append, sumDegrees_append, hs]
        simp [labelCmds, rotations, sumDegrees, deg2Rad]
        ring
    · simp only [hi, if_false, Option.some.injEq] at h
      subst h
      simp [translations, rotations, sumDegrees]

/-- C6: on a dial with `minvalue < maxvalue`, whenever `drawScale`, `drawValue`
or `drawPointer` returns, the transform commands it issued cancel: the rotate
angles sum to a multiple of 360 degrees, the translations sum to `(0,0)`, and
on a validation failure there is no transform command at all. -/
theorem transforms_cancel (env : Env) (d : Dial) (hr : d.minvalue < d.maxvalue) :
    (∀ (fuel : ℕ) (o : ScaleOptions) (r : Result ScaleOptions),
        drawScale env fuel d o = some r → TransformsCancel r.ret r.cmds) ∧
    (∀ o : ValueOptions,
        TransformsCancel (drawValue env d o).ret (drawValue env d o).cmds) ∧
    (∀ o : PointerOptions,
        TransformsCancel (drawPointer d o).ret (drawPointer d o).cmds) := by
  have hpos : 0 < d.getRange := getRange_pos d hr
  have hne : d.getRange ≠ 0 := ne_of_gt hpos
  have hfail : TransformsCancel false [] :=
    ⟨⟨0, by simp [netRotation, rotations, sumDegrees]⟩,
      by simp [netTranslation, translations], fun _ => ⟨rfl, rfl⟩⟩
  refine ⟨?_, ?_, ?_⟩
  · intro fuel o r h
    unfold drawScale at h
    have hnt : (if d.tickmarks ≠ 0 then d.tickmarks else d.getRange / 10) ≠ 0 := by
      by_cases ht : d.tickmarks ≠ 0
      · rw [if_pos ht]
        exact ht
      · rw [if_neg ht]
        exact div_ne_zero hne (by norm_num)
    generalize (if d.tickmarks ≠ 0 then d.tickmarks else d.getRange / 10) = numTicks
      at h hnt
    cases hrp : o.radiusPercent with
    | none =>
      rw [hrp] at h
      simp only [Option.some.injEq] at h
      subst h
      exact hfail
    | some rp =>
      cases hfsp : o.fontSizePercent with
      | none =>
        rw [hrp, hfsp] at h
        simp only [Option.some.injEq] at h
        subst h
        exact hfail
      | some fsp =>
        rw [hrp, hfsp] at h
        simp only [] at h
        by_cases hc : checkPercent (Arg.num rp) = false ∨ checkPercent (Arg.num fsp) = false
        · rw [if_pos hc] at h
          simp only [Option.some.injEq] at h
          subst h
          exact hfail
        · rw [if_neg hc, if_neg hnt] at h
          simp only [Option.map_eq_some'] at h
          obtain ⟨loop, hloop, rfl⟩ := h
          obtain ⟨ht, hs⟩ := scaleLoop_transforms _ _ _ _ _ _ _ _ _ _ hloop
          refine ⟨⟨1, ?_⟩, ?_, ?_⟩
          · simp only [netRotation, rotations_append, sumDegrees_append, hs]
            simp [rotations, sumDegrees, deg2Rad]
          · simp only [netTranslation, translations_append, ht]
            simp [translations]
          · intro hf
            cases hf
  · intro o
    unfold drawValue
    simp only []
    generalize (if d.value ≠ 0 then some d.value else o.value) = value0
    cases value0 with
    | none => exact hfail
    | some value =>
      simp only []
      by_cases hc : checkValue d (Arg.num value) = false
      · rw [if_pos hc]
        exact hfail
      · rw [if_neg hc]
        refine ⟨⟨0, ?_⟩, ?_, ?_⟩
        · simp only [netRotation, rotations_append]
          cases hb : o.bgcolor with
          | none => simp [rotations, sumDegrees]
          | some c =>
            by_cases hcc : c = "" <;> simp [hcc, rotations, sumDegrees]
        · simp only [netTranslation, translations_append]
          cases hb : o.bgcolor with
          | none => simp [translations]
          | some c =>
            by_cases hcc : c = "" <;> simp [hcc, translations]
        · intro hf
          cases hf
  · intro o
    unfold drawPointer
    simp only []
    generalize (if d.value ≠ 0 then some d.value else o.value) = value0
    cases value0 with
    | none => exact hfail
    | some value =>
      simp only []
      by_cases hc : checkValue d (Arg.num value) = false ∨
          checkPercent (Arg.num (orNum o.radiusPercent 90)) = false
      · rw [if_pos hc]
        exact hfail
      · rw [if_neg hc]
        refine ⟨⟨1, ?_⟩, ?_, ?_⟩
        · simp [netRotation, rotations, sumDegrees, deg2Rad, hne]
        · simp [netTranslation, translations]
        · intro hf
          cases hf

/-- C6, on the dial 0..100: a run of each of the three primitives, and its
transform commands cancel. -/
theorem transforms_cancel_witness :
    gauge.minvalue < gauge.maxvalue ∧
    (∃ r, drawScale flatEnv 11 gauge scaleBag = some r ∧ TransformsCancel r.ret r.cmds) ∧
    TransformsCancel (drawValue flatEnv gauge (valueBag 50)).ret
      (drawValue flatEnv gauge (valueBag 50)).cmds ∧
    TransformsCancel (drawPointer gauge (pointerBag 50)).ret
      (drawPointer gauge (pointerBag 50)).cmds := by
  have hr : gauge.minvalue < gauge.maxvalue := by norm_num [gauge]
  have h := transforms_cancel flatEnv gauge hr
  have hsome : (drawScale flatEnv 11 gauge scaleBag).isSome = true := by
    with_unfolding_all decide
  obtain ⟨r, hrun⟩ := Option.isSome_iff_exists.mp hsome
  exact ⟨hr, ⟨r, hrun, h.1 _ _ _ hrun⟩, h.2.1 _, h.2.2 _⟩

/-! ## Validation and return values -/

/-- C7, evaluated on the dial 0..100.  In
`drawSegment({start: 200, stop: 50, radiusPercent: 50, widthPercent: 10})` the
`start` fails `checkValue`, and in
`drawSegment({start: 0, stop: 100, radiusPercent: 150, widthPercent: 10})` the
`radiusPercent` fails `checkPercent`; the `drawArc` that `drawSegment` calls
returns false and draws nothing, as `drawArc` does on the same arguments, and
`drawSegment` returns true all the same (lines 240-244). -/
theorem drawSegment_true_on_failed_validation :
    checkValue gauge (Arg.ofOption (arcBag 200 50).start) = false ∧
    (drawArc gauge (arcBag 200 50)).ret = false ∧
    (drawArc gauge (segmentBag (arcBag 200 50))).ret = false ∧
    (drawSegment gauge (arcBag 200 50)).cmds = [] ∧
    (drawSegment gauge (arcBag 200 50)).ret = true ∧
    checkPercent (Arg.ofOption (arcBagPercent 0 100 150 10).radiusPercent) = false ∧
    (drawArc gauge (arcBagPercent 0 100 150 10)).ret = false ∧
    (drawArc gauge (segmentBag (arcBagPercent 0 100 150 10))).ret = false ∧
    (drawSegment gauge (arcBagPercent 0 100 150 10)).cmds = [] ∧
    (drawSegment gauge (arcBagPercent 0 100 150 10)).ret = true := by
  with_unfolding_all decide

/-- What validation decides in the primitives that propagate it.  `drawArc`,
`drawValue` and `drawPointer` return true exactly when the arguments they hand
to `checkValue`/`checkPercent` pass, and `drawTicks` and `drawScale` return
false when a percent fails and true only when both pass.  A call that fails
validation issues no surface command, and neither does `drawSegment` when an
argument it hands to `drawArc` fails. -/
theorem validation_decides_return (env : Env) (d : Dial) :
    (∀ o : ArcOptions,
        ((drawArc d o).ret = true ↔
          (checkValue d (Arg.ofOption o.start) = true ∧ checkValue d (Arg.ofOption o.stop) = true ∧
            checkPercent (Arg.ofOption o.radiusPercent) = true ∧
            checkPercent (Arg.ofOption o.widthPercent) = true)) ∧
        ((drawArc d o).ret = false → (drawArc d o).cmds = [])) ∧
    (∀ o : ArcOptions,
        (checkValue d (Arg.ofOption o.start) = false ∨ checkValue d (Arg.ofOption o.stop) = false ∨
          checkPercent (Arg.ofOption o.radiusPercent) = false ∨
          checkPercent (Arg.ofOption o.widthPercent) = false) →
        (drawSegment d o).cmds = []) ∧
    (∀ (fuel : ℕ) (o : TicksOptions),
        ((checkPercent (Arg.ofOption o.radiusPercent) = false ∨
          checkPercent (Arg.ofOption o.lengthPercent) = false) →
          drawTicks fuel d o = some ⟨false, [], o⟩) ∧
        (∀ r, drawTicks fuel d o = some r → r.ret = true →
          checkPercent (Arg.ofOption o.radiusPercent) = true ∧
          checkPercent (Arg.ofOption o.lengthPercent) = true)) ∧
    (∀ (fuel : ℕ) (o : ScaleOptions),
        ((checkPercent (Arg.ofOption o.radiusPercent) = false ∨
          checkPercent (Arg.ofOption o.fontSizePercent) = false) →
          drawScale env fuel d o = some ⟨false, [], o⟩) ∧
        (∀ r, drawScale env fuel d o = some r → r.ret = true →
          checkPercent (Arg.ofOption o.radiusPercent) = true ∧
          checkPercent (Arg.ofOption o.fontSizePercent) = true)) ∧
    (∀ o : ValueOptions,
        ((drawValue env d o).ret = true ↔
          checkValue d (Arg.ofOption (if d.value ≠ 0 then some d.value else o.value)) = true) ∧
        ((drawValue env d o).ret = false → (drawValue env d o).cmds = [])) ∧
    (∀ o : PointerOptions,
        ((drawPointer d o).ret = true ↔
          (checkValue d (Arg.ofOption (if d.value ≠ 0 then some d.value else o.value)) = true ∧
            checkPercent (Arg.num (orNum o.radiusPercent 90)) = true)) ∧
        ((drawPointer d o).ret = false → (drawPointer d o).cmds = [])) := by
  have harc : ∀ o : ArcOptions,
      ((drawArc d o).ret = true ↔
        (checkValue d (Arg.ofOption o.start) = true ∧
          checkValue d (Arg.ofOption o.stop) = true ∧
          checkPercent (Arg.ofOption o.radiusPercent) = true ∧
          checkPercent (Arg.ofOption o.widthPercent) = true)) ∧
      ((drawArc d o).ret = false → (drawArc d o).cmds = []) := by
    intro o
    unfold drawArc
    cases hs : o.start with
    | none => simp [checkValue, Arg.ofOption]
    | some s =>
      cases ht : o.stop with
      | none => simp [checkValue, Arg.ofOption]
      | some t =>
        cases hrp : o.radiusPercent with
        | none => simp [checkPercent, Arg.ofOption]
        | some rp =>
          cases hwp : o.widthPercent with
          | none => simp [checkPercent, Arg.ofOption]
          | some wp =>
            simp only [Arg.ofOption]
            by_cases hc : checkValue d (Arg.num s) = false ∨ checkValue d (Arg.num t) = false ∨
                checkPercent (Arg.num rp) = false ∨ checkPercent (Arg.num wp) = false
            · rw [if_pos hc]
              refine ⟨⟨fun h => (by cases h), fun h => ?_⟩, fun _ => rfl⟩
              rcases hc with h1 | h1 | h1 | h1
              · rw [h.1] at h1; cases h1
              · rw [h.2.1] at h1; cases h1
              · rw [h.2.2.1] at h1; cases h1
              · rw [h.2.2.2] at h1; cases h1
            · rw [if_neg hc]
              simp only [not_or, Bool.not_eq_false] at hc
              exact ⟨⟨fun _ => hc, fun _ => rfl⟩, fun h => by cases h⟩
  have hoff : ∀ p : Arg, checkPercent p = false ∨ checkPercent p = true := by
    intro p
    cases checkPercent p <;> simp
  have hticks : ∀ (fuel : ℕ) (o : TicksOptions),
      (checkPercent (Arg.ofOption o.radiusPercent) = false ∨
       checkPercent (Arg.ofOption o.lengthPercent) = false) →
      drawTicks fuel d o = some ⟨false, [], o⟩ := by
    intro fuel o hbad
    unfold drawTicks
    cases hrp : o.radiusPercent with
    | none => rfl
    | some rp =>
      cases hlp : o.lengthPercent with
      | none => rfl
      | some lp =>
        rw [hrp, hlp] at hbad
        simp only [Arg.ofOption] at hbad
        simp only []
        rw [if_pos hbad]
  have hscale : ∀ (fuel : ℕ) (o : ScaleOptions),
      (checkPercent (Arg.ofOption o.radiusPercent) = false ∨
       checkPercent (Arg.ofOption o.fontSizePercent) = false) →
      drawScale env fuel d o = some ⟨false, [], o⟩ := by
    intro fuel o hbad
    unfold drawScale
    cases hrp : o.radiusPercent with
    | none => rfl
    | some rp =>
      cases hfsp : o.fontSizePercent with
      | none => rfl
      | some fsp =>
        rw [hrp, hfsp] at hbad
        simp only [Arg.ofOption] at hbad
        simp only []
        rw [if_pos hbad]
  refine ⟨harc, ?_, ?_, ?_, ?_, ?_⟩
  · intro o hbad
    have h := harc (segmentBag o)
    have hret : (drawArc d (segmentBag o)).ret = false := by
      rw [← Bool.not_eq_true, h.1]
      rintro ⟨h1, h2, h3, h4⟩
      simp only [segmentBag] at h1 h2 h3 h4
      rcases hbad with hb | hb | hb | hb
      · rw [h1] at hb; cases hb
      · rw [h2] at hb; cases hb
      · rw [h3] at hb; cases hb
      · rw [h4] at hb; cases hb
    exact h.2 hret
  · intro fuel o
    refine ⟨hticks fuel o, fun r hrun hret => ?_⟩
    rcases hoff (Arg.ofOption o.radiusPercent) with h1 | h1
    · rw [hticks fuel o (Or.inl h1)] at hrun
      simp only [Option.some.injEq] at hrun
      subst hrun
      cases hret
    · rcases hoff (Arg.ofOption o.lengthPercent) with h2 | h2
      · rw [hticks fuel o (Or.inr h2)] at hrun
        simp only [Option.some.injEq] at hrun
        subst hrun
        cases hret
      · exact ⟨h1, h2⟩
  · intro fuel o
    refine ⟨hscale fuel o, fun r hrun hret => ?_⟩
    rcases hoff (Arg.ofOption o.radiusPercent) with h1 | h1
    · rw [hscale fuel o (Or.inl h1)] at hrun
      simp only [Option.some.injEq] at hrun
      subst hrun
      cases hret
    · rcases hoff (Arg.ofOption o.fontSizePercent) with h2 | h2
      · rw [hscale fuel o (Or.inr h2)] at hrun
        simp only [Option.some.injEq] at hrun
        subst hrun
        cases hret
      · exact ⟨h1, h2⟩
  · intro o
    unfold drawValue
    simp only []
    generalize (if d.value ≠ 0 then some d.value else o.value) = value0
    cases value0 with
    | none => simp [checkValue, Arg.ofOption]
    | some value =>
      simp only [Arg.ofOption]
      by_cases hc : checkValue d (Arg.num value) = false
      · rw [if_pos hc]
        simp [hc]
      · rw [if_neg hc]
        simp only [Bool.not_eq_false] at hc
        simp [hc]
  · intro o
    unfold drawPointer
    simp only []
    generalize (if d.value ≠ 0 then some d.value else o.value) = value0
    cases value0 with
    | none => simp [checkValue, Arg.ofOption]
    | some value =>
      simp only [Arg.ofOption]
      by_cases hc : checkValue d (Arg.num value) = false ∨
          checkPercent (Arg.num (orNum o.radiusPercent 90)) = false
      · rw [if_pos hc]
        refine ⟨⟨fun h => (by cases h), fun h => ?_⟩, fun _ => rfl⟩
        rcases hc with h1 | h1
        · rw [h.1] at h1; cases h1
        · rw [h.2] at h1; cases h1
      · rw [if_neg hc]
        simp only [not_or, Bool.not_eq_false] at hc
        exact ⟨⟨fun _ => hc, fun _ => rfl⟩, fun h => by cases h⟩

/-! ## drawArc called twice on one bag -/

/-- C8, evaluated on the dial 10..20.  With the bag `{start: 10, stop: 20}` the
first `drawArc` returns true and leaves `start = 0`, `stop = 10` in the bag
(lines 180-181), so the second call on that bag returns false.  With the bag
`{start: 20, stop: 20}` both calls return true, but the second issues a
different arc. -/
theorem drawArc_twice_on_one_bag_differs :
    (drawArc gaugeOffset (arcBag 10 20)).ret = true ∧
    (drawArc gaugeOffset (arcBag 10 20)).bag.start = some 0 ∧
    (drawArc gaugeOffset (arcBag 10 20)).bag.stop = some 10 ∧
    (drawArc gaugeOffset (drawArc gaugeOffset (arcBag 10 20)).bag).ret = false ∧
    (drawArc gaugeOffset (arcBag 20 20)).ret = true ∧
    (drawArc gaugeOffset (drawArc gaugeOffset (arcBag 20 20)).bag).ret = true ∧
    arcs (drawArc gaugeOffset (drawArc gaugeOffset (arcBag 20 20)).bag).cmds ≠
      arcs (drawArc gaugeOffset (arcBag 20 20)).cmds := by
  with_unfolding_all decide

/-! ## drawScale with more tick marks than the range -/

/-- With a zero step the label loop never ends: it runs out of any fuel. -/
theorem scaleLoop_zero_step (env : Env) (d : Dial) (font : String) (rp lrot : ℚ) :
    ∀ (fuel : ℕ) (i lr : ℚ), i ≤ d.maxvalue →
      scaleLoop env d font rp lrot 0 fuel i lr = none := by
  intro fuel
  induction fuel with
  | zero =>
    intro i lr hi
    unfold scaleLoop
    simp [hi]
  | succ fuel ih =>
    intro i lr hi
    unfold scaleLoop
    simp [hi, ih i (lr + lrot) hi]

/-- C9, evaluated on the dial 0..10 with 11 tick marks and valid percents: the
spacing `floor(10 / 11)` is 0, nothing detects it, and `drawScale` does not
return, whatever the fuel. -/
theorem drawScale_crowded_never_returns (env : Env) (fuel : ℕ) :
    checkPercent (Arg.ofOption scaleBag.radiusPercent) = true ∧
    checkPercent (Arg.ofOption scaleBag.fontSizePercent) = true ∧
    ⌊gaugeCrowded.getRange / gaugeCrowded.tickmarks⌋ = 0 ∧
    drawScale env fuel gaugeCrowded scaleBag = none := by
  have hfloor : ⌊gaugeCrowded.getRange / gaugeCrowded.tickmarks⌋ = 0 := by
    rw [Int.floor_eq_zero_iff]
    norm_num [gaugeCrowded, gauge, Dial.getRange]
  have h80 : checkPercent (Arg.num 80) = true :=
    checkPercent_of_bounds 80 (by norm_num) (by norm_num)
  have h10 : checkPercent (Arg.num 10) = true :=
    checkPercent_of_bounds 10 (by norm_num) (by norm_num)
  refine ⟨h80, h10, hfloor, ?_⟩
  have htm : gaugeCrowded.tickmarks ≠ 0 := by norm_num [gaugeCrowded, gauge]
  have hle : gaugeCrowded.minvalue ≤ gaugeCrowded.maxvalue := by
    norm_num [gaugeCrowded, gauge]
  unfold drawScale
  simp only [scaleBag, h80, h10, Bool.true_eq_false, or_self, if_false, htm, ne_eq,
    not_false_eq_true, if_true, hfloor, Int.cast_zero, Option.map_eq_none']
  exact scaleLoop_zero_step env gaugeCrowded _ _ _ fuel _ _ hle

/-! ## drawPointer -/

/-- C10: on a dial with `minvalue < maxvalue` whose current value is unset (0),
for `options.value = v` within the range (and a radius that is absent or valid),
`drawPointer` returns true and rotates the surface by
`rotation + 90 + (v - minvalue) / range * sweep` degrees, undoing it with the
second rotation; on the dial 0..100 with sweep 270 and rotation 135, `v = 50`
gives 360 degrees. -/
theorem drawPointer_rotates_to_value (d : Dial) (o : PointerOptions) (v : ℚ)
    (hr : d.minvalue < d.maxvalue) (hval : d.value = 0) (hv : o.value = some v)
    (hlo : d.minvalue ≤ v) (hhi : v ≤ d.maxvalue)
    (hrp : checkPercent (Arg.num (orNum o.radiusPercent 90)) = true) :
    (drawPointer d o).ret = true ∧
    rotations (drawPointer d o).cmds =
      [deg2Rad (d.rotation + 90 + (v - d.minvalue) / d.getRange * d.sweep),
       deg2Rad (360 - (d.rotation + 90 + (v - d.minvalue) / d.getRange * d.sweep))] ∧
    rotations (drawPointer gauge (pointerBag 50)).cmds = [deg2Rad 360, deg2Rad 0] := by
  have hne : d.getRange ≠ 0 := ne_of_gt (getRange_pos d hr)
  have hcv : checkValue d (Arg.num v) = true := by
    have : ¬ (v < d.minvalue ∨ v > d.maxvalue) := by
      push_neg
      exact ⟨hlo, hhi⟩
    simp [checkValue, this]
  have hcond : ¬ (checkValue d (Arg.num v) = false ∨
      checkPercent (Arg.num (orNum o.radiusPercent 90)) = false) := by
    rw [hcv, hrp]
    simp
  refine ⟨?_, ?_, ?_⟩
  · unfold drawPointer
    simp only [hval, ne_eq, not_true_eq_false, if_false, hv]
    rw [if_neg hcond]
  · unfold drawPointer
    simp only [hval, ne_eq, not_true_eq_false, if_false, hv]
    rw [if_neg hcond]
    simp [rotations, hne, Dial.pointerDegrees]
  · with_unfolding_all decide

/-- C10, on the dial 0..100 with sweep 270 and rotation 135, for
`drawPointer({value: 50})`. -/
theorem drawPointer_rotates_to_value_witness :
    (drawPointer gauge (pointerBag 50)).ret = true ∧
    rotations (drawPointer gauge (pointerBag 50)).cmds =
      [deg2Rad (gauge.rotation + 90 + (50 - gauge.minvalue) / gauge.getRange * gauge.sweep),
       deg2Rad (360 -
        (gauge.rotation + 90 + (50 - gauge.minvalue) / gauge.getRange * gauge.sweep))] ∧
    rotations (drawPointer gauge (pointerBag 50)).cmds = [deg2Rad 360, deg2Rad 0] :=
  drawPointer_rotates_to_value gauge (pointerBag 50) 50 (by norm_num [gauge]) rfl rfl
    (by norm_num [gauge]) (by norm_num [gauge])
    (checkPercent_of_bounds _ (by norm_num [pointerBag, orNum]) (by norm_num [pointerBag, orNum]))

/-! ## drawPointer and the dial's current value -/

/-- The value `drawPointer` validates and points at is the dial's current
value when that is not 0, and `options.value` otherwise (lines 464-466). -/
theorem drawPointer_of_effective_value (d : Dial) (o : PointerOptions) (x : ℚ)
    (hne : d.getRange ≠ 0)
    (heff : (if d.value ≠ 0 then some d.value else o.value) = some x)
    (hlo : d.minvalue ≤ x) (hhi : x ≤ d.maxvalue)
    (hrp : checkPercent (Arg.num (orNum o.radiusPercent 90)) = true) :
    (drawPointer d o).ret = true ∧
    rotations (drawPointer d o).cmds =
      [deg2Rad (d.rotation + 90 + (x - d.minvalue) / d.getRange * d.sweep),
       deg2Rad (360 - (d.rotation + 90 + (x - d.minvalue) / d.getRange * d.sweep))] := by
  have hcv : checkValue d (Arg.num x) = true := by
    have : ¬ (x < d.minvalue ∨ x > d.maxvalue) := by
      push_neg
      exact ⟨hlo, hhi⟩
    simp [checkValue, this]
  have hcond : ¬ (checkValue d (Arg.num x) = false ∨
      checkPercent (Arg.num (orNum o.radiusPercent 90)) = false) := by
    rw [hcv, hrp]
    simp
  constructor
  · unfold drawPointer
    simp only []
    rw [heff]
    simp only []
    rw [if_neg hcond]
  · unfold drawPointer
    simp only []
    rw [heff]
    simp only []
    rw [if_neg hcond]
    simp [rotations, hne, Dial.pointerDegrees]

/-- C11, evaluated on the dial 0..100 with current value 30 at
`drawPointer({value: 50})`: the supplied 50 is within the range, yet lines
464-466 replace it by the dial's 30 and the call rotates by
`135 + 90 + 30/100 * 270 = 306` degrees, the angle of 30, while the angle of the
supplied 50 is 360. -/
theorem drawPointer_ignores_supplied_value :
    (gaugeAt 30).minvalue < (gaugeAt 30).maxvalue ∧
    checkValue (gaugeAt 30) (Arg.ofOption (pointerBag 50).value) = true ∧
    (drawPointer (gaugeAt 30) (pointerBag 50)).ret = true ∧
    rotations (drawPointer (gaugeAt 30) (pointerBag 50)).cmds = [deg2Rad 306, deg2Rad 54] ∧
    (gaugeAt 30).rotation + 90 +
      (50 - (gaugeAt 30).minvalue) / (gaugeAt 30).getRange * (gaugeAt 30).sweep = 360 := by
  with_unfolding_all decide

/-- What lines 464-466 do on every dial with `minvalue < maxvalue` (radius
absent or valid): when the dial's current value is not 0, `drawPointer`
validates it and rotates to it whatever `options.value` is, and returns false
when it is out of range; `options.value = v` within the range is rotated to
when the current value is 0. -/
theorem drawPointer_current_value_first (d : Dial) (o : PointerOptions)
    (hr : d.minvalue < d.maxvalue)
    (hrp : checkPercent (Arg.num (orNum o.radiusPercent 90)) = true) :
    (d.value ≠ 0 → d.minvalue ≤ d.value → d.value ≤ d.maxvalue →
      (drawPointer d o).ret = true ∧
      rotations (drawPointer d o).cmds =
        [deg2Rad (d.rotation + 90 + (d.value - d.minvalue) / d.getRange * d.sweep),
         deg2Rad (360 -
          (d.rotation + 90 + (d.value - d.minvalue) / d.getRange * d.sweep))]) ∧
    (d.value ≠ 0 → (d.value < d.minvalue ∨ d.maxvalue < d.value) →
      (drawPointer d o).ret = false ∧ (drawPointer d o).cmds = []) ∧
    (d.value = 0 → ∀ v : ℚ, o.value = some v → d.minvalue ≤ v → v ≤ d.maxvalue →
      (drawPointer d o).ret = true ∧
      rotations (drawPointer d o).cmds =
        [deg2Rad (d.rotation + 90 + (v - d.minvalue) / d.getRange * d.sweep),
         deg2Rad (360 - (d.rotation + 90 + (v - d.minvalue) / d.getRange * d.sweep))]) := by
  have hne : d.getRange ≠ 0 := ne_of_gt (getRange_pos d hr)
  refine ⟨?_, ?_, ?_⟩
  · intro hset hlo hhi
    exact drawPointer_of_effective_value d o d.value hne (if_pos hset) hlo hhi hrp
  · intro hset hout
    have hcv : checkValue d (Arg.num d.value) = false := by
      have : d.value < d.minvalue ∨ d.value > d.maxvalue := hout
      simp [checkValue, this]
    unfold drawPointer
    simp only []
    rw [if_pos hset]
    simp only []
    rw [if_pos (Or.inl hcv)]
    exact ⟨rfl, rfl⟩
  · intro hunset v hv hlo hhi
    have heff : (if d.value ≠ 0 then some d.value else o.value) = some v := by
      rw [if_neg (not_not.mpr hunset), hv]
    exact drawPointer_of_effective_value d o v hne heff hlo hhi hrp

/-- On the dial 0..100: with current value 30 the pointer of
`drawPointer({value: 50})` is at the angle of 30; with the current value 0 it is
at the angle of 50. -/
theorem drawPointer_current_value_first_witness :
    (gaugeAt 30).minvalue < (gaugeAt 30).maxvalue ∧
    checkPercent (Arg.num (orNum (pointerBag 50).radiusPercent 90)) = true ∧
    rotations (drawPointer (gaugeAt 30) (pointerBag 50)).cmds =
      [deg2Rad ((gaugeAt 30).rotation + 90 +
          ((gaugeAt 30).value - (gaugeAt 30).minvalue) / (gaugeAt 30).getRange *
            (gaugeAt 30).sweep),
       deg2Rad (360 - ((gaugeAt 30).rotation + 90 +
          ((gaugeAt 30).value - (gaugeAt 30).minvalue) / (gaugeAt 30).getRange *
            (gaugeAt 30).sweep))] ∧
    rotations (drawPointer (gaugeAt 0) (pointerBag 50)).cmds =
      [deg2Rad ((gaugeAt 0).rotation + 90 +
          (50 - (gaugeAt 0).minvalue) / (gaugeAt 0).getRange * (gaugeAt 0).sweep),
       deg2Rad (360 - ((gaugeAt 0).rotation + 90 +
          (50 - (gaugeAt 0).minvalue) / (gaugeAt 0).getRange * (gaugeAt 0).sweep))] := by
  have h90 : checkPercent (Arg.num (orNum (pointerBag 50).radiusPercent 90)) = true := by
    with_unfolding_all decide
  have h30 := drawPointer_current_value_first (gaugeAt 30) (pointerBag 50)
    (by with_unfolding_all decide) h90
  have h0 := drawPointer_current_value_first (gaugeAt 0) (pointerBag 50)
    (by with_unfolding_all decide) h90
  exact ⟨by with_unfolding_all decide, h90,
    (h30.1 (by with_unfolding_all decide) (by with_unfolding_all decide)
      (by with_unfolding_all decide)).2,
    (h0.2.2 (by with_unfolding_all decide) 50 rfl (by with_unfolding_all decide)
      (by with_unfolding_all decide)).2⟩

/-! ## The radius drawArc hands to the surface -/

/-- C12, as stated, fails: on a canvas 300 wide the bag
`{start: 0, stop: 100, radiusPercent: 1, widthPercent: 100}` passes validation,
`absWidth` is 300 and the radius `floor(150 * 1/100 - 300/2)` handed to `arc` is
`-149`. -/
theorem drawArc_negative_radius :
    (drawArc gauge (arcBagPercent 0 100 1 100)).ret = true ∧
    gauge.absWidth 100 = 300 ∧
    gauge.absRadius 1 (gauge.absWidth 100) = -149 ∧
    arcs (drawArc gauge (arcBagPercent 0 100 1 100)).cmds =
      [Cmd.arc 150 150 (-149) (deg2Rad 135) (deg2Rad 405) false] := by
  with_unfolding_all decide

/-- C12, amended: for a bag that passes `drawArc`'s validation, the radius
handed to `arc` is `floor(centerX * radiusPercent/100 - absWidth/2)` with
`absWidth = floor(canvasWidth * widthPercent/100)`; it is non-negative exactly
when `absWidth/2 ≤ centerX * radiusPercent/100`, and that holds whenever
`canvasWidth * widthPercent ≤ 2 * centerX * radiusPercent`, so on an even canvas
width whenever `widthPercent ≤ radiusPercent`. -/
theorem drawArc_radius_nonneg_iff (d : Dial) (o : ArcOptions) (rp wp : ℚ)
    (hrp : o.radiusPercent = some rp) (hwp : o.widthPercent = some wp)
    (hret : (drawArc d o).ret = true) :
    (∃ a b : Angle, arcs (drawArc d o).cmds =
      [Cmd.arc d.getCenterX d.getCenterY (d.absRadius rp (d.absWidth wp)) a b false]) ∧
    (0 ≤ d.absRadius rp (d.absWidth wp) ↔
      ((d.absWidth wp : ℤ) : ℚ) / 2 ≤ d.getCenterX * rp / 100) ∧
    (d.getWidth * wp ≤ 2 * d.getCenterX * rp → 0 ≤ d.absRadius rp (d.absWidth wp)) ∧
    (d.width % 2 = 0 → wp ≤ rp → 0 ≤ d.absRadius rp (d.absWidth wp)) := by
  have hiff : 0 ≤ d.absRadius rp (d.absWidth wp) ↔
      ((d.absWidth wp : ℤ) : ℚ) / 2 ≤ d.getCenterX * rp / 100 := by
    unfold Dial.absRadius
    rw [Int.floor_nonneg, sub_nonneg]
  have hsuff : d.getWidth * wp ≤ 2 * d.getCenterX * rp →
      0 ≤ d.absRadius rp (d.absWidth wp) := by
    intro hle
    rw [hiff]
    have hfloor : ((d.absWidth wp : ℤ) : ℚ) ≤ d.getWidth * wp / 100 := by
      unfold Dial.absWidth
      exact Int.floor_le _
    linarith
  refine ⟨?_, hiff, hsuff, ?_⟩
  · unfold drawArc at hret ⊢
    rw [hrp, hwp] at hret ⊢
    cases hs : o.start with
    | none => rw [hs] at hret; simp at hret
    | some s =>
      cases ht : o.stop with
      | none => rw [hs, ht] at hret; simp at hret
      | some t =>
        rw [hs, ht] at hret
        simp only [] at hret ⊢
        by_cases hc : checkValue d (Arg.num s) = false ∨ checkValue d (Arg.num t) = false ∨
            checkPercent (Arg.num rp) = false ∨ checkPercent (Arg.num wp) = false
        · rw [if_pos hc] at hret
          cases hret
        · rw [if_neg hc]
          exact ⟨d.sweepAngle (s - d.minvalue), d.sweepAngle (t - d.minvalue), by simp [arcs]⟩
  · intro heven hle
    apply hsuff
    obtain ⟨k, hk⟩ : ∃ k : ℕ, d.width = 2 * k := ⟨d.width / 2, by omega⟩
    have hcx : d.getCenterX = (k : ℚ) := by
      unfold Dial.getCenterX
      rw [hk]
      have : ((2 * k : ℕ) : ℚ) / 2 = ((k : ℤ) : ℚ) := by
        push_cast
        ring
      rw [this, Int.floor_intCast]
      simp
    have hw : d.getWidth = 2 * (k : ℚ) := by
      unfold Dial.getWidth
      rw [hk]
      push_cast
      ring
    rw [hcx, hw]
    have hk0 : (0 : ℚ) ≤ 2 * (k : ℚ) := by positivity
    exact mul_le_mul_of_nonneg_left hle hk0

/-- C12 amended, on a canvas 300 wide with `radiusPercent = 50` and
`widthPercent = 10`: the radius is `floor(75 - 15) = 60`. -/
theorem drawArc_radius_nonneg_iff_witness :
    (drawArc gauge (arcBag 0 100)).ret = true ∧
    gauge.getWidth * 10 ≤ 2 * gauge.getCenterX * 50 ∧
    0 ≤ gauge.absRadius 50 (gauge.absWidth 10) := by
  have hret : (drawArc gauge (arcBag 0 100)).ret = true := by with_unfolding_all decide
  have hle : gauge.getWidth * 10 ≤ 2 * gauge.getCenterX * 50 := by
    with_unfolding_all decide
  exact ⟨hret, hle, (drawArc_radius_nonneg_iff gauge (arcBag 0 100) 50 10 rfl rfl hret).2.2.1 hle⟩

end CanvasDial
